import Mathlib

/-!
Shallow embedding of the Rank-Collapse-vs-Explosion visualizer core.

Sources embedded:
- `src/App.tsx`: `status` (regime classifier), `metrics` (derived metric
  panel), and the AutoDriver `animate` tick (target oscillator, clamp, and
  smoothed rank update).
- `src/components/MatrixParticles.tsx`: `Particle` (constructor and
  per-frame `update`), the `resize` handler, and the proximity-edge pass of
  the render loop.

Numbers are modelled over `ℝ` (JavaScript numbers treated as exact reals;
`Math.exp`, `Math.pow`, `Math.sin`, `Math.sqrt` become `Real.exp`,
`Real.rpow`, `Real.sin`, `Real.sqrt`).  The rank is an integer: the UI
slider produces `parseInt` values and the AutoDriver writes `Math.round`
results.  Calls to `Math.random()` are modelled as explicit parameters
ranging over `[0,1)`, and wall-clock reads (`Date.now()`) as explicit time
parameters.
-/

/-- `ModelStatus` from `types.ts`. -/
inductive ModelStatus where
  | COLLAPSED
  | STABLE
  | EXPLODING
deriving DecidableEq, Repr

/-- `TrainingMetrics` from `types.ts`. -/
structure TrainingMetrics where
  loss : ℝ
  vramUsage : ℝ
  gradientNorm : ℝ
  intelligenceScore : ℝ

/-- `status` from `App.tsx` (lines 75-79):
`if (rank < 30) return COLLAPSED; if (rank > 70) return EXPLODING; return STABLE`. -/
def status (rank : ℤ) : ModelStatus :=
  if rank < 30 then ModelStatus.COLLAPSED
  else if rank > 70 then ModelStatus.EXPLODING
  else ModelStatus.STABLE

/-- The four raw metric values `(loss, vram, iq, grad)` computed in the
branches of `metrics` in `App.tsx` (lines 87-105), before the final
clamping.  `r` is the `Math.random()` draw used by the stable-regime
gradient jitter. -/
noncomputable def metricsRaw (rank : ℤ) (r : ℝ) : ℝ × ℝ × ℝ × ℝ :=
  match status rank with
  | ModelStatus.COLLAPSED =>
      (2.5 + (30 - (rank : ℝ)) * 0.1, 12 + (rank : ℝ) * 0.1,
       (rank : ℝ) * 2, 0.001)
  | ModelStatus.EXPLODING =>
      (0.5 + Real.exp (((rank : ℝ) - 70) / 5), 40 + ((rank : ℝ) - 70) * 2,
       100 - ((rank : ℝ) - 70) * 3, (10 : ℝ) ^ ((((rank : ℝ) - 60) / 5) : ℝ))
  | ModelStatus.STABLE =>
      (0.4 - |50 - (rank : ℝ)| * 0.01, 24 + ((rank : ℝ) - 30) * 0.4,
       140 - |50 - (rank : ℝ)|, 1.0 + (r - 0.5) * 0.1)

/-- `metrics` from `App.tsx` (lines 81-113): raw per-regime formulas
followed by `max(0, loss)`, `min(80, vram)`, `max(0, iq)`; the gradient is
returned unclamped. -/
noncomputable def metrics (rank : ℤ) (r : ℝ) : TrainingMetrics :=
  { loss := max 0 (metricsRaw rank r).1
    vramUsage := min 80 (metricsRaw rank r).2.1
    intelligenceScore := max 0 (metricsRaw rank r).2.2.1
    gradientNorm := (metricsRaw rank r).2.2.2 }

/-- The display-layer convention from `App.tsx` (line 288): the gradient
is rendered as "NaN" (divergent) exactly when its value exceeds 1000. -/
def gradDisplayedDivergent (g : ℝ) : Prop := g > 1000

/-- C1: for every rank in [0,100], the status is Collapsed iff rank < 30,
Stable iff 30 ≤ rank ≤ 70, and Exploding iff rank > 70; in particular
rank = 30 and rank = 70 both classify as Stable. -/
theorem status_thresholds (rank : ℤ) (h0 : 0 ≤ rank) (h1 : rank ≤ 100) :
    (status rank = ModelStatus.COLLAPSED ↔ rank < 30) ∧
    (status rank = ModelStatus.STABLE ↔ 30 ≤ rank ∧ rank ≤ 70) ∧
    (status rank = ModelStatus.EXPLODING ↔ 70 < rank) ∧
    status 30 = ModelStatus.STABLE ∧ status 70 = ModelStatus.STABLE := by
  refine ⟨?_, ?_, ?_, by decide, by decide⟩ <;>
    · unfold status
      split_ifs <;> simp_all <;> omega

theorem status_thresholds_witness :
    (status 50 = ModelStatus.COLLAPSED ↔ (50 : ℤ) < 30) ∧
    (status 50 = ModelStatus.STABLE ↔ (30 : ℤ) ≤ 50 ∧ (50 : ℤ) ≤ 70) ∧
    (status 50 = ModelStatus.EXPLODING ↔ (70 : ℤ) < 50) ∧
    status 30 = ModelStatus.STABLE ∧ status 70 = ModelStatus.STABLE :=
  status_thresholds 50 (by decide) (by decide)

/-- C5: at rank = 90 the metrics are: status Exploding, loss = 0.5 + e^4,
vramUsage = 80 with raw formula value 80, intelligenceScore
= max(0, 100 − (90−70)·3) = 40, gradientNorm = 10^((90−60)/5) = 10^6,
and the display layer renders the gradient as divergent since it exceeds
1000.  The jitter draw `r` is irrelevant in the Exploding regime. -/
theorem metrics_at_rank_90 (r : ℝ) :
    status 90 = ModelStatus.EXPLODING ∧
    (metrics 90 r).loss = 0.5 + Real.exp 4 ∧
    (metrics 90 r).vramUsage = 80 ∧ (metricsRaw 90 r).2.1 = 80 ∧
    (metrics 90 r).intelligenceScore = max 0 (100 - (90 - 70) * 3) ∧
    (metrics 90 r).intelligenceScore = 40 ∧
    (metrics 90 r).gradientNorm = 10 ^ (6 : ℕ) ∧
    gradDisplayedDivergent (metrics 90 r).gradientNorm := by
  have hs : status 90 = ModelStatus.EXPLODING := by decide
  have hraw : metricsRaw 90 r =
      (0.5 + Real.exp 4, 80, 40, (10 : ℝ) ^ ((6 : ℝ) : ℝ)) := by
    unfold metricsRaw
    rw [hs]
    norm_num
  have hexp : (0 : ℝ) < Real.exp 4 := Real.exp_pos 4
  have hpow : (10 : ℝ) ^ ((6 : ℝ) : ℝ) = 10 ^ (6 : ℕ) := by
    rw [show ((6 : ℝ) : ℝ) = ((6 : ℕ) : ℝ) by norm_num, Real.rpow_natCast]
  refine ⟨hs, ?_, ?_, ?_, ?_, ?_, ?_, ?_⟩ <;>
    simp [metrics, hraw, gradDisplayedDivergent, hpow] <;> norm_num
  · linarith

/-- C6: for every rank in [0,100] and every jitter draw, the clamped
metrics satisfy 0 ≤ vramUsage ≤ 80, loss ≥ 0 and intelligenceScore ≥ 0. -/
theorem metrics_bounds (rank : ℤ) (r : ℝ) (h0 : 0 ≤ rank) (h1 : rank ≤ 100) :
    0 ≤ (metrics rank r).vramUsage ∧ (metrics rank r).vramUsage ≤ 80 ∧
    0 ≤ (metrics rank r).loss ∧ 0 ≤ (metrics rank r).intelligenceScore := by
  have hraw : 12 ≤ (metricsRaw rank r).2.1 := by
    unfold metricsRaw status
    have h0R : (0 : ℝ) ≤ (rank : ℝ) := by exact_mod_cast h0
    split_ifs with hc he
    · simp only
      linarith
    · simp only
      have : (70 : ℝ) < (rank : ℝ) := by exact_mod_cast he
      linarith
    · simp only
      have : (30 : ℝ) ≤ (rank : ℝ) := by exact_mod_cast (not_lt.mp hc)
      linarith
  refine ⟨?_, ?_, ?_, ?_⟩
  · simp only [metrics, le_min_iff]
    constructor <;> linarith
  · exact min_le_left _ _
  · exact le_max_left _ _
  · exact le_max_left _ _

theorem metrics_bounds_witness :
    0 ≤ (metrics 25 0.5).vramUsage ∧ (metrics 25 0.5).vramUsage ≤ 80 ∧
    0 ≤ (metrics 25 0.5).loss ∧ 0 ≤ (metrics 25 0.5).intelligenceScore :=
  metrics_bounds 25 0.5 (by decide) (by decide)

/-- C10: for every rank in [0,100] and every jitter draw, vramUsage is at
least 12 (a stronger lower bound than the spec's 0): the code applies no
lower clamp, but every per-regime raw memory formula is ≥ 12, with the
minimum 12 attained in the Collapsed regime at rank = 0. -/
theorem vram_lower_bound (rank : ℤ) (r : ℝ) (h0 : 0 ≤ rank) (h1 : rank ≤ 100) :
    12 ≤ (metrics rank r).vramUsage ∧ (metrics 0 r).vramUsage = 12 := by
  constructor
  · have hraw : 12 ≤ (metricsRaw rank r).2.1 := by
      unfold metricsRaw status
      have h0R : (0 : ℝ) ≤ (rank : ℝ) := by exact_mod_cast h0
      split_ifs with hc he
      · simp only
        linarith
      · simp only
        have : (70 : ℝ) < (rank : ℝ) := by exact_mod_cast he
        linarith
      · simp only
        have : (30 : ℝ) ≤ (rank : ℝ) := by exact_mod_cast (not_lt.mp hc)
        linarith
    simp only [metrics, le_min_iff]
    constructor <;> linarith
  · have hs : status 0 = ModelStatus.COLLAPSED := by decide
    have hraw : (metricsRaw 0 r).2.1 = 12 := by
      unfold metricsRaw
      rw [hs]
      norm_num
    simp [metrics, hraw]
    norm_num

theorem vram_lower_bound_witness :
    12 ≤ (metrics 55 0.5).vramUsage ∧ (metrics 0 0.5).vramUsage = 12 :=
  vram_lower_bound 55 0.5 (by decide) (by decide)

/-- JavaScript `Math.round` (used by the AutoDriver's smoothed update):
rounds half toward +∞, i.e. `⌊x + 1/2⌋`. -/
noncomputable def jround (x : ℝ) : ℤ := ⌊x + 1/2⌋

/-- The sequential clamp from `App.tsx` (lines 157-158):
`if (targetRank < 0) targetRank = 0; if (targetRank > 100) targetRank = 100`. -/
noncomputable def clampRank (x : ℝ) : ℝ :=
  let x1 := if x < 0 then 0 else x
  if x1 > 100 then 100 else x1

/-- The AutoDriver target from `App.tsx` (lines 147-158):
`50 + Math.sin(now*0.5)*30 + Math.sin(now*2.5)*10 + (Math.random()-0.5)*5`,
then clamped.  `Date.now()/1000` is modelled by the parameter `now` and
`Math.random()` by `r`. -/
noncomputable def driverTarget (now r : ℝ) : ℝ :=
  clampRank (50 + Real.sin (now * 0.5) * 30 + Real.sin (now * 2.5) * 10
    + (r - 0.5) * 5)

/-- The smoothed rank update from `App.tsx` (lines 161-164):
`Math.round(prev + (targetRank - prev) * 0.05)`. -/
noncomputable def driverStep (prev : ℤ) (targetRank : ℝ) : ℤ :=
  jround ((prev : ℝ) + (targetRank - (prev : ℝ)) * 0.05)

/-- C4 counterexample: with rank 50 and constant target 51 the smoothed
update rounds back to 50 (the 0.05-scaled increment is below the rounding
threshold), so the distance to the target does not strictly decrease. -/
theorem driver_step_not_strict :
    (51 : ℝ) ≠ ((50 : ℤ) : ℝ) ∧ driverStep 50 51 = 50 ∧
    ¬ |((driverStep 50 51 : ℤ) : ℝ) - 51| < |((50 : ℤ) : ℝ) - 51| := by
  have hstep : driverStep 50 51 = 50 := by
    unfold driverStep jround
    rw [Int.floor_eq_iff]
    push_cast
    norm_num
  refine ⟨by push_cast; norm_num, hstep, ?_⟩
  rw [hstep]
  push_cast
  norm_num

/-- C4 (amended): when the target is held constant and differs from the
current rank, each smoothing step never increases the distance to the
target: `|rank(t+1) − target| ≤ |rank(t) − target|` (strictness fails for
small gaps because of rounding). -/
theorem driver_step_contracts (prev : ℤ) (targetRank : ℝ)
    (h : targetRank ≠ (prev : ℝ)) :
    |((driverStep prev targetRank : ℤ) : ℝ) - targetRank| ≤
      |(prev : ℝ) - targetRank| := by
  have hstep : driverStep prev targetRank =
      prev + ⌊(targetRank - (prev : ℝ)) * 0.05 + 1/2⌋ := by
    unfold driverStep jround
    rw [show (prev : ℝ) + (targetRank - (prev : ℝ)) * 0.05 + 1/2
          = (prev : ℝ) + ((targetRank - (prev : ℝ)) * 0.05 + 1/2) by ring]
    exact Int.floor_int_add prev _
  set d : ℝ := targetRank - (prev : ℝ) with hd
  set n : ℤ := ⌊d * 0.05 + 1/2⌋ with hn
  have hle : (n : ℝ) ≤ d * 0.05 + 1/2 := Int.floor_le _
  have hlt : d * 0.05 + 1/2 < (n : ℝ) + 1 := Int.lt_floor_add_one _
  have hgoal : ((driverStep prev targetRank : ℤ) : ℝ) - targetRank
      = (n : ℝ) - d := by
    rw [hstep]
    push_cast
    rw [hd]
    ring
  have hprev : (prev : ℝ) - targetRank = -d := by rw [hd]; ring
  rw [hgoal, hprev, abs_neg, abs_le]
  rcases le_or_lt 0 d with hd0 | hd0
  · rw [abs_of_nonneg hd0]
    constructor
    · have hn0 : (0 : ℤ) ≤ n := Int.le_floor.mpr (by push_cast; linarith)
      have hn0R : (0 : ℝ) ≤ (n : ℝ) := by exact_mod_cast hn0
      linarith
    · rcases le_or_lt 1 n with h1 | h1
      · have h1R : (1 : ℝ) ≤ (n : ℝ) := by exact_mod_cast h1
        have hd10 : 10 ≤ d := by linarith
        linarith
      · have h1R : (n : ℝ) ≤ 0 := by exact_mod_cast (by omega : n ≤ 0)
        linarith
  · rw [abs_of_neg hd0]
    constructor
    · rcases le_or_lt 0 n with h1 | h1
      · have h1R : (0 : ℝ) ≤ (n : ℝ) := by exact_mod_cast h1
        linarith
      · have h1R : (n : ℝ) ≤ -1 := by exact_mod_cast (by omega : n ≤ -1)
        have hdn : d < -10 := by linarith
        linarith
    · have h1 : n < 1 := Int.floor_lt.mpr (by push_cast; linarith)
      have h1R : (n : ℝ) ≤ 0 := by exact_mod_cast (by omega : n ≤ 0)
      linarith

theorem driver_step_contracts_witness :
    (51 : ℝ) ≠ ((50 : ℤ) : ℝ) ∧
    |((driverStep 50 51 : ℤ) : ℝ) - 51| ≤ |((50 : ℤ) : ℝ) - 51| :=
  ⟨by push_cast; norm_num,
   driver_step_contracts 50 51 (by push_cast; norm_num)⟩

/-- C8: on each AutoDriver tick with `Math.random()` draw `r ∈ [0,1)`, the
target rank equals `50 + 30·sin(0.5t) + 10·sin(2.5t) + n` with the noise
`n = (r − 0.5)·5 ∈ [−2.5, 2.5)`, clamped to [0,100]; the live rank is then
updated to `round(rank + (target − rank)·0.05)`. -/
theorem driver_tick_formula (now r : ℝ) (prev : ℤ) (targetRank : ℝ)
    (h0 : 0 ≤ r) (h1 : r < 1) :
    ∃ n : ℝ, -2.5 ≤ n ∧ n < 2.5 ∧
      driverTarget now r
        = clampRank (50 + 30 * Real.sin (0.5 * now)
            + 10 * Real.sin (2.5 * now) + n) ∧
      driverStep prev targetRank
        = jround ((prev : ℝ) + (targetRank - (prev : ℝ)) * 0.05) := by
  refine ⟨(r - 0.5) * 5, by linarith, by linarith, ?_, rfl⟩
  unfold driverTarget
  congr 2 <;> ring_nf

theorem driver_tick_formula_witness :
    (0 : ℝ) ≤ 1/2 ∧ (1/2 : ℝ) < 1 ∧
    ∃ n : ℝ, -2.5 ≤ n ∧ n < 2.5 ∧
      driverTarget 0 (1/2)
        = clampRank (50 + 30 * Real.sin (0.5 * 0)
            + 10 * Real.sin (2.5 * 0) + n) ∧
      driverStep 0 60
        = jround (((0 : ℤ) : ℝ) + (60 - ((0 : ℤ) : ℝ)) * 0.05) :=
  ⟨by norm_num, by norm_num,
   driver_tick_formula 0 (1/2) 0 60 (by norm_num) (by norm_num)⟩

/-- `Particle` from `MatrixParticles.tsx` (lines 7-15).  The `color`
field (a render-only string that no computation reads back) is omitted. -/
structure Particle where
  x : ℝ
  y : ℝ
  vx : ℝ
  vy : ℝ
  size : ℝ
  baseX : ℝ
  baseY : ℝ

instance : Inhabited Particle := ⟨⟨0, 0, 0, 0, 0, 0, 0⟩⟩

/-- The `Particle` constructor (`MatrixParticles.tsx` lines 17-26); the
five `Math.random()` draws are `r1..r5`. -/
noncomputable def Particle.init (width height r1 r2 r3 r4 r5 : ℝ) : Particle :=
  { x := r1 * width
    y := r2 * height
    vx := (r3 - 0.5) * 2
    vy := (r4 - 0.5) * 2
    size := r5 * 2 + 1
    baseX := r1 * width
    baseY := r2 * height }

/-- The exploding-regime wraparound from `MatrixParticles.tsx` (lines
88-91), one coordinate: `if (x < 0) x = w; if (x > w) x = 0;` as two
sequential conditionals. -/
noncomputable def wrapCoord (x w : ℝ) : ℝ :=
  let x1 := if x < 0 then w else x
  if x1 > w then 0 else x1

/-- `Particle.update` (`MatrixParticles.tsx` lines 28-98), color and
drawing omitted.  `time` models `Date.now() * 0.001` for the stable
orbit; `r1`, `r2` are the `Math.random()` draws of the exploding jitter. -/
noncomputable def Particle.update (p : Particle) (rank : ℤ)
    (width height time r1 r2 : ℝ) : Particle :=
  let centerX := width / 2
  let centerY := height / 2
  let v : ℝ × ℝ :=
    if rank < 30 then
      let dx := centerX - p.x
      let dy := centerY - p.y
      ((p.vx + dx * 0.005) * 0.9, (p.vy + dy * 0.005) * 0.9)
    else if rank > 70 then
      let instability := ((rank : ℝ) - 70) / 10
      let vx1 := p.vx + (r1 - 0.5) * instability
      let vy1 := p.vy + (r2 - 0.5) * instability
      let dx := p.x - centerX
      let dy := p.y - centerY
      let dist := Real.sqrt (dx * dx + dy * dy)
      if dist < 100 then (vx1 + dx * 0.01, vy1 + dy * 0.01) else (vx1, vy1)
    else
      let targetX := p.baseX + Real.sin (time + p.baseY) * 20
      let targetY := p.baseY + Real.cos (time + p.baseX) * 20
      let dx := targetX - p.x
      let dy := targetY - p.y
      ((p.vx + dx * 0.01) * 0.95, (p.vy + dy * 0.01) * 0.95)
  let x1 := p.x + v.1
  let y1 := p.y + v.2
  { p with
      x := if rank > 70 then wrapCoord x1 width else x1
      y := if rank > 70 then wrapCoord y1 height else y1
      vx := v.1
      vy := v.2 }

lemma wrapCoord_mem (x w : ℝ) (hw : 0 ≤ w) :
    0 ≤ wrapCoord x w ∧ wrapCoord x w ≤ w := by
  simp only [wrapCoord]
  split_ifs <;> constructor <;> linarith

/-- C2 counterexample: in the Exploding regime a pre-wrap position below 0
is set to exactly `width`, so the post-wrap position is not inside the
half-open box [0,width)×[0,height).  Concretely: width 400, height 300, a
particle at the center with vx = −201 lands at x = −1 and is wrapped to
x = 400. -/
theorem update_wrap_not_halfopen :
    (70 : ℤ) < 80 ∧
    (Particle.update ⟨200, 150, -201, 0, 1, 200, 150⟩ 80
        400 300 0 (1/2) (1/2)).x = 400 ∧
    ¬ (Particle.update ⟨200, 150, -201, 0, 1, 200, 150⟩ 80
        400 300 0 (1/2) (1/2)).x < 400 := by
  have hx : (Particle.update ⟨200, 150, -201, 0, 1, 200, 150⟩ 80
      400 300 0 (1/2) (1/2)).x = 400 := by
    unfold Particle.update wrapCoord
    norm_num [Real.sqrt_zero]
  exact ⟨by decide, hx, by rw [hx]; norm_num⟩

/-- C2 (amended): in the Exploding regime (rank > 70), after a particle's
per-frame update including the wraparound step, its position lies within
the closed box [0,width] × [0,height] (the wraparound maps a negative
coordinate to exactly `width` resp. `height`, so the half-open box of the
claim is not guaranteed). -/
theorem update_wrap_bounds (p : Particle) (rank : ℤ)
    (width height time r1 r2 : ℝ) (hr : 70 < rank)
    (hw : 0 ≤ width) (hh : 0 ≤ height) :
    0 ≤ (p.update rank width height time r1 r2).x ∧
    (p.update rank width height time r1 r2).x ≤ width ∧
    0 ≤ (p.update rank width height time r1 r2).y ∧
    (p.update rank width height time r1 r2).y ≤ height := by
  unfold Particle.update
  simp only [if_pos hr]
  exact ⟨(wrapCoord_mem _ _ hw).1, (wrapCoord_mem _ _ hw).2,
    (wrapCoord_mem _ _ hh).1, (wrapCoord_mem _ _ hh).2⟩

theorem update_wrap_bounds_witness :
    ((70 : ℤ) < 80 ∧ (0 : ℝ) ≤ 400 ∧ (0 : ℝ) ≤ 300) ∧
    (0 ≤ (Particle.update ⟨10, 20, 1, 1, 1, 10, 20⟩ 80 400 300 0 0 0).x ∧
     (Particle.update ⟨10, 20, 1, 1, 1, 10, 20⟩ 80 400 300 0 0 0).x ≤ 400 ∧
     0 ≤ (Particle.update ⟨10, 20, 1, 1, 1, 10, 20⟩ 80 400 300 0 0 0).y ∧
     (Particle.update ⟨10, 20, 1, 1, 1, 10, 20⟩ 80 400 300 0 0 0).y ≤ 300) :=
  ⟨⟨by decide, by norm_num, by norm_num⟩,
   update_wrap_bounds ⟨10, 20, 1, 1, 1, 10, 20⟩ 80 400 300 0 0 0
     (by decide) (by norm_num) (by norm_num)⟩

/-- `canvas.parentElement?.clientWidth || 600` from `resize`
(`MatrixParticles.tsx` lines 118-119): a missing parent or a zero
dimension (both falsy in JavaScript) falls back to 600. -/
def resolveDim (d : Option ℕ) : ℕ :=
  match d with
  | none => 600
  | some w => if w = 0 then 600 else w

/-- `resize` (`MatrixParticles.tsx` lines 117-122): the particle
population is discarded and replaced by
`Array.from({length: 150}, () => new Particle(width, height))`.
`rnd` supplies the stream of `Math.random()` draws, five per particle. -/
noncomputable def resizeParticles (pw ph : Option ℕ) (rnd : ℕ → ℝ) :
    List Particle :=
  (List.range 150).map fun i =>
    Particle.init (resolveDim pw) (resolveDim ph)
      (rnd (5 * i)) (rnd (5 * i + 1)) (rnd (5 * i + 2))
      (rnd (5 * i + 3)) (rnd (5 * i + 4))

lemma resolveDim_pos (d : Option ℕ) : 0 < resolveDim d := by
  cases d with
  | none => decide
  | some w =>
      simp only [resolveDim]
      split_ifs <;> omega

/-- C9: every resize of the drawable surface (including first attach,
where the fallback dimension 600 applies) produces exactly 150 fresh
particles, each with initial position inside [0,width) × [0,height) for
the resolved dimensions, given that every `Math.random()` draw lies in
[0,1). -/
theorem resize_population (pw ph : Option ℕ) (rnd : ℕ → ℝ)
    (hrnd : ∀ n, 0 ≤ rnd n ∧ rnd n < 1) :
    (resizeParticles pw ph rnd).length = 150 ∧
    ∀ p ∈ resizeParticles pw ph rnd,
      0 ≤ p.x ∧ p.x < (resolveDim pw : ℝ) ∧
      0 ≤ p.y ∧ p.y < (resolveDim ph : ℝ) := by
  constructor
  · simp [resizeParticles]
  · intro p hp
    simp only [resizeParticles, List.mem_map, List.mem_range] at hp
    obtain ⟨i, hi, rfl⟩ := hp
    have hw : (0 : ℝ) < (resolveDim pw : ℝ) := by
      exact_mod_cast resolveDim_pos pw
    have hh : (0 : ℝ) < (resolveDim ph : ℝ) := by
      exact_mod_cast resolveDim_pos ph
    obtain ⟨h1a, h1b⟩ := hrnd (5 * i)
    obtain ⟨h2a, h2b⟩ := hrnd (5 * i + 1)
    refine ⟨mul_nonneg h1a hw.le, ?_, mul_nonneg h2a hh.le, ?_⟩
    · calc rnd (5 * i) * (resolveDim pw : ℝ)
          < 1 * (resolveDim pw : ℝ) := by
            exact mul_lt_mul_of_pos_right h1b hw
      _ = (resolveDim pw : ℝ) := one_mul _
    · calc rnd (5 * i + 1) * (resolveDim ph : ℝ)
          < 1 * (resolveDim ph : ℝ) := by
            exact mul_lt_mul_of_pos_right h2b hh
      _ = (resolveDim ph : ℝ) := one_mul _

theorem resize_population_witness :
    (∀ n : ℕ, 0 ≤ (fun _ : ℕ => (1/2 : ℝ)) n ∧
      (fun _ : ℕ => (1/2 : ℝ)) n < 1) ∧
    ((resizeParticles (some 400) none fun _ => (1/2 : ℝ)).length = 150 ∧
     ∀ p ∈ resizeParticles (some 400) none fun _ => (1/2 : ℝ),
       0 ≤ p.x ∧ p.x < (resolveDim (some 400) : ℝ) ∧
       0 ≤ p.y ∧ p.y < (resolveDim none : ℝ)) :=
  ⟨fun _ => ⟨by norm_num, by norm_num⟩,
   resize_population (some 400) none (fun _ => (1/2 : ℝ))
     (fun _ => ⟨by norm_num, by norm_num⟩)⟩

/-- The per-pair condition of the proximity-edge pass of `animate`
(`MatrixParticles.tsx` lines 140-149): indices `i < j` into the particle
array whose positions satisfy `Math.sqrt(dx*dx + dy*dy) < 60`. -/
noncomputable def proximityPair (ps : List Particle) (i j : ℕ) : Prop :=
  i < j ∧ j < ps.length ∧
    Real.sqrt
      (((ps.getD i default).x - (ps.getD j default).x)
          * ((ps.getD i default).x - (ps.getD j default).x)
        + ((ps.getD i default).y - (ps.getD j default).y)
          * ((ps.getD i default).y - (ps.getD j default).y)) < 60

/-- The proximity-edge set drawn by one frame of `animate`
(`MatrixParticles.tsx` lines 136-152): the pair pass runs only under
`if (rank < 80)`; otherwise no edge is produced. -/
noncomputable def frameEdges (rank : ℤ) (ps : List Particle) :
    Set (ℕ × ℕ) :=
  if rank < 80 then {q | proximityPair ps q.1 q.2} else ∅

/-- C3 counterexample: rank 75 is in the Exploding regime (75 > 70), yet
the proximity-edge pass still runs (the code's guard is `rank < 80`, not
the regime threshold): two particles 10 units apart produce an edge. -/
theorem exploding_edges_counterexample :
    (70 : ℤ) < 75 ∧ status 75 = ModelStatus.EXPLODING ∧
    ((0, 1) : ℕ × ℕ) ∈ frameEdges 75
      [⟨0, 0, 0, 0, 1, 0, 0⟩, ⟨10, 0, 0, 0, 1, 10, 0⟩] := by
  refine ⟨by decide, by decide, ?_⟩
  unfold frameEdges
  rw [if_pos (by decide : (75 : ℤ) < 80)]
  simp only [Set.mem_setOf_eq, proximityPair, List.getD_cons_zero,
    List.getD_cons_succ, List.length_cons, List.length_nil]
  refine ⟨by omega, by omega, ?_⟩
  rw [Real.sqrt_lt' (by norm_num : (0 : ℝ) < 60)]
  norm_num

/-- C3 (amended): the proximity-edge pass is skipped, and no connecting
edges are drawn, exactly on frames with rank ≥ 80; for Exploding ranks in
(70, 80) the edges are still computed. -/
theorem edges_skipped_above_80 (rank : ℤ) (ps : List Particle)
    (h : 80 ≤ rank) : frameEdges rank ps = ∅ := by
  unfold frameEdges
  rw [if_neg (by omega)]

theorem edges_skipped_above_80_witness :
    frameEdges 85 [] = ∅ :=
  edges_skipped_above_80 85 [] (by decide)

/-- C7: on a frame with rank < 80 the proximity edge set is exactly the
set of unordered particle pairs (each taken once, as an index pair
`i < j`) whose Euclidean distance is strictly below 60 — stated
equivalently as squared distance below 3600; on a frame with rank > 80 no
proximity edges are produced. -/
theorem frame_edges_characterization (rank : ℤ) (ps : List Particle) :
    (rank < 80 → frameEdges rank ps =
      {q : ℕ × ℕ | q.1 < q.2 ∧ q.2 < ps.length ∧
        ((ps.getD q.1 default).x - (ps.getD q.2 default).x) ^ 2
          + ((ps.getD q.1 default).y - (ps.getD q.2 default).y) ^ 2
          < 3600}) ∧
    (80 < rank → frameEdges rank ps = ∅) := by
  constructor
  · intro h
    unfold frameEdges
    rw [if_pos h]
    ext q
    simp only [Set.mem_setOf_eq, proximityPair]
    refine and_congr_right fun _ => and_congr_right fun _ => ?_
    rw [Real.sqrt_lt' (by norm_num : (0 : ℝ) < 60)]
    simp only [pow_two]
    norm_num
  · intro h
    unfold frameEdges
    rw [if_neg (by omega)]

theorem frame_edges_characterization_witness :
    (frameEdges 50 ([] : List Particle) =
      {q : ℕ × ℕ | q.1 < q.2 ∧ q.2 < ([] : List Particle).length ∧
        ((([] : List Particle).getD q.1 default).x
            - (([] : List Particle).getD q.2 default).x) ^ 2
          + ((([] : List Particle).getD q.1 default).y
            - (([] : List Particle).getD q.2 default).y) ^ 2
          < 3600}) ∧
    frameEdges 90 ([] : List Particle) = ∅ :=
  ⟨(frame_edges_characterization 50 []).1 (by decide),
   (frame_edges_characterization 90 []).2 (by decide)⟩
